import Mathlib

/-!
Verification of the natural-language specification of `gotots` (a Go-struct
to TypeScript-class converter) against a shallow embedding of its source,
`src/gotots.py`.  Strings are modelled as `List Char`; the Python regular
expressions of the source are modelled by explicit, executable scanning
functions whose backtracking behaviour was traced by hand from the regex
semantics of CPython's `re` module.
-/

namespace Gotots

/-- Python 2 `\s` character class (and `str.strip` whitespace set):
space, tab, newline, carriage return, vertical tab, form feed. -/
def pyIsSpace (c : Char) : Bool :=
  c == ' ' || c == '\t' || c == '\n' || c == '\r' || c == '\x0b' || c == '\x0c'

/-- The character class `[\w.]` of `re_ptr` (ASCII `\w` plus a dot). -/
def isWordDot (c : Char) : Bool :=
  (97 ≤ c.toNat && c.toNat ≤ 122) || (65 ≤ c.toNat && c.toNat ≤ 90) ||
    (48 ≤ c.toNat && c.toNat ≤ 57) || c == '_' || c == '.'

/-- ASCII `[A-Z]`. -/
def isUpper (c : Char) : Bool := 65 ≤ c.toNat && c.toNat ≤ 90

/-- ASCII `[a-z]`. -/
def isLower (c : Char) : Bool := 97 ≤ c.toNat && c.toNat ≤ 122

/-- ASCII `[0-9]`. -/
def isDigit (c : Char) : Bool := 48 ≤ c.toNat && c.toNat ≤ 57

/-- Python 2 `str.lower` on one byte: maps `A`-`Z` to `a`-`z`. -/
def pyLowerChar (c : Char) : Char :=
  if isUpper c then Char.ofNat (c.toNat + 32) else c

/-- Python 2 `str.lower`. -/
def pyLower (s : List Char) : List Char := s.map pyLowerChar

/-- Python 2 `str.strip`: drop whitespace from both ends. -/
def pyStrip (s : List Char) : List Char :=
  ((s.dropWhile pyIsSpace).reverse.dropWhile pyIsSpace).reverse

/-- Python's substring test `needle in hay`. -/
def strContains (needle : List Char) : List Char → Bool
  | [] => needle.isEmpty
  | c :: t => needle.isPrefixOf (c :: t) || strContains needle t

/-- The regex `map\[(?P<keyType>[^\]]+)\](?P<valueType>[^\s]+)` applied with
`re.match` (anchored at the start, no end anchor): the key is everything up
to the first `]` (at least one character), the value the maximal run of
non-whitespace characters after that `]` (at least one character). -/
def mapMatch (gotype : List Char) : Option (List Char × List Char) :=
  if ("map[".toList).isPrefixOf gotype then
    let t := gotype.drop 4
    let k := t.takeWhile (fun c => !(c == ']'))
    match t.dropWhile (fun c => !(c == ']')) with
    | ']' :: u =>
      let v := u.takeWhile (fun c => !pyIsSpace c)
      if k ≠ [] ∧ v ≠ [] then some (k, v) else none
    | _ => none
  else none

/-- Embedding of `TypeScriptClassWriter._go_type_to_ts_type` from `src/gotots.py`. -/
def go_type_to_ts_type (gotype : List Char) : List Char :=
  if strContains ("int".toList) gotype ∨ strContains ("float".toList) gotype then
    "number".toList
  else if gotype = "bool".toList then "boolean".toList
  else if ("map[".toList).isPrefixOf gotype then
    match mapMatch gotype with
    | some (k, v) => "\x7b[key: ".toList ++ k ++ "]: ".toList ++ v ++ "\x7d".toList
    | none => "Object".toList
  else if ("[]".toList).isPrefixOf gotype then
    let remainder := gotype.drop 2 ++ "[]".toList
    if ("*".toList).isPrefixOf remainder then remainder.drop 1 else remainder
  else if ("*".toList).isPrefixOf gotype then gotype.drop 1
  else gotype

/-- Fuel-indexed engine for `re.sub('(.)([A-Z][a-z]+)', r'\1-\2', s)`: scan
left to right; a match is any character followed by an upper-case letter and
a maximal nonempty run of lower-case letters; a hyphen is put after the first
character and scanning resumes after the match.  One unit of fuel is spent
per scan step; `sub1` supplies `s.length` fuel, which always suffices because
every step consumes at least one character. -/
def sub1Fuel : Nat → List Char → List Char
  | 0, s => s
  | _ + 1, [] => []
  | _ + 1, [c] => [c]
  | _ + 1, [c, u] => [c, u]
  | fuel + 1, c :: u :: d :: t =>
    if isUpper u && isLower d then
      c :: '-' :: u :: ((d :: t).takeWhile isLower ++ sub1Fuel fuel ((d :: t).dropWhile isLower))
    else c :: sub1Fuel fuel (u :: d :: t)

/-- First substitution pass `re.sub('(.)([A-Z][a-z]+)', r'\1-\2', s)`. -/
def sub1 (s : List Char) : List Char := sub1Fuel s.length s

/-- Second substitution pass `re.sub('([a-z0-9])([A-Z])', r'\1-\2', s)`: scan left to right; a match is
a lower-case letter or digit followed by an upper-case letter; a hyphen is
inserted between them and scanning resumes after the pair. -/
def sub2 : List Char → List Char
  | c :: u :: t =>
    if (isLower c || isDigit c) && isUpper u then c :: '-' :: u :: sub2 t
    else c :: sub2 (u :: t)
  | s => s

/-- Embedding of `TypeScriptClassWriter._to_dash_name` from `src/gotots.py`. -/
def to_dash_name (filename : List Char) : List Char :=
  pyLower (sub2 (sub1 filename))

/-! ## Line recognizers of `GoFileParser` -/

/-- Attempted match of `type (?P<class>[^\s]+) struct` at the start of `s`:
the group is the maximal nonempty run of non-whitespace characters after
`type `, and must be followed by the literal ` struct`. -/
def matchClassAt (s : List Char) : Option (List Char) :=
  if ("type ".toList).isPrefixOf s then
    let t := s.drop 5
    let run := t.takeWhile (fun c => !pyIsSpace c)
    let rest := t.dropWhile (fun c => !pyIsSpace c)
    if run ≠ [] ∧ (" struct".toList).isPrefixOf rest then some run else none
  else none

/-- Search `re_class.search(line)`: try `matchClassAt` at every position, left to
right; the first success wins. -/
def searchClassDecl : List Char → Option (List Char)
  | [] => none
  | c :: t =>
    match matchClassAt (c :: t) with
    | some r => some r
    | none => searchClassDecl t

/-- Search `re_ptr.search(line)` with pattern `^\s*\*(?P<classname>[\w.]+)$`: leading
whitespace, a `*`, a nonempty run of word-or-dot characters, and then the end
of the string (`$` also matches just before one final newline). -/
def matchPtr (s : List Char) : Option (List Char) :=
  match s.dropWhile pyIsSpace with
  | '*' :: u =>
    let run := u.takeWhile isWordDot
    let rest := u.dropWhile isWordDot
    if run ≠ [] ∧ (rest = [] ∨ rest = ['\n']) then some run else none
  | _ => none

/-- The tail `,?(?P<optional>omitempty)?"` followed by a closing backtick, in
regex backtracking order; returns the `optional` group. -/
def tryTagClose (v : List Char) : Option (Option (List Char)) :=
  if (",omitempty\"\x60".toList).isPrefixOf v then some (some ("omitempty".toList))
  else if (",\"\x60".toList).isPrefixOf v then some none
  else if ("omitempty\"\x60".toList).isPrefixOf v then some (some ("omitempty".toList))
  else if ("\"\x60".toList).isPrefixOf v then some none
  else none

/-- Attempted match of
`(?P<field>[^\s]+)\s+(?P<type>[^\s]+)\s+`json:"(?P<json>[^," ]+),?(?P<optional>omitempty)?"``
at the start of `s`.  Both `[^\s]+` groups are forced to be maximal runs (the
pattern requires whitespace right after each), as is the `json` group (no
shorter split can complete the tail, traced by hand over the four tail
variants). -/
def matchFieldAt (s : List Char) :
    Option (List Char × List Char × List Char × Option (List Char)) :=
  let r1 := s.takeWhile (fun c => !pyIsSpace c)
  let s1 := s.dropWhile (fun c => !pyIsSpace c)
  let w1 := s1.takeWhile pyIsSpace
  let s2 := s1.dropWhile pyIsSpace
  let r2 := s2.takeWhile (fun c => !pyIsSpace c)
  let s3 := s2.dropWhile (fun c => !pyIsSpace c)
  let w2 := s3.takeWhile pyIsSpace
  let s4 := s3.dropWhile pyIsSpace
  if r1 ≠ [] ∧ w1 ≠ [] ∧ r2 ≠ [] ∧ w2 ≠ [] ∧ ("\x60json:\"".toList).isPrefixOf s4 then
    let u := s4.drop 7
    let j := u.takeWhile (fun c => !(c == ',') && !(c == '"') && !(c == ' '))
    let v := u.dropWhile (fun c => !(c == ',') && !(c == '"') && !(c == ' '))
    if j ≠ [] then
      match tryTagClose v with
      | some opt => some (r1, r2, j, opt)
      | none => none
    else none
  else none

/-- Search `re_field.search(line)`. -/
def searchField : List Char → Option (List Char × List Char × List Char × Option (List Char))
  | [] => none
  | c :: t =>
    match matchFieldAt (c :: t) with
    | some r => some r
    | none => searchField t

/-- Search `re_enum_open.search(line)` with pattern `^\s*const \(\s*`. -/
def matchEnumOpen (s : List Char) : Bool :=
  ("const (".toList).isPrefixOf (s.dropWhile pyIsSpace)

/-- Search `re_enum_close.search(line)` with pattern `\s*\)\s*$` (note: NOT anchored
at the start): the line matches iff it contains a `)` followed only by
whitespace, i.e. iff after removing trailing whitespace the line ends in `)`. -/
def matchEnumClose (s : List Char) : Bool :=
  match s.reverse.dropWhile pyIsSpace with
  | c :: _ => c == ')'
  | [] => false

/-- Anchor `$` of a Python non-multiline regex: matches at the very end of the
string or just before one final newline. -/
def noTrailJunk (s : List Char) : Bool := s == ([] : List Char) || s == ['\n']

/-- Fragment `.*$` at `s`: `.` does not match a newline, so this succeeds iff `s`
contains no newline except possibly one final newline. -/
def matchDotStarEnd (s : List Char) : Bool :=
  noTrailJunk (s.dropWhile (fun c => !(c == '\n')))

/-- The optional group `(\s+=.*)$` of `re_enum_item` tried at `s`: at least
one whitespace character (the run is forced maximal because `=` is not
whitespace), then `=`, then `.*$`. -/
def matchG (s : List Char) : Bool :=
  match s.dropWhile pyIsSpace with
  | '=' :: rest => !(s.takeWhile pyIsSpace).isEmpty && matchDotStarEnd rest
  | _ => false

/-- The tail `(?P<type>[^\s=]+)?(\s+=.*)?$` of `re_enum_item` tried at a
position holding the text `u` (which begins with a non-whitespace character
or is at the end): first with the `type` group present (forced maximal), then
without it; inside each, the `(\s+=.*)` group is tried before the bare `$`.
Returns the `type` group of the succeeding variant. -/
def tailTG (u : List Char) : Option (Option (List Char)) :=
  let r2 := u.takeWhile (fun c => !pyIsSpace c && !(c == '='))
  let u2 := u.dropWhile (fun c => !pyIsSpace c && !(c == '='))
  if r2 ≠ [] ∧ (matchG u2 = true ∨ noTrailJunk u2 = true) then some (some r2)
  else if matchG u = true ∨ noTrailJunk u = true then some none
  else none

/-- Attempted match of `\s*(?P<enum>[^\s]+)\s+(?P<type>[^\s=]+)?(\s+=.*)?$`
at the start of `s`: leading whitespace, the `enum` group (forced maximal),
a mandatory whitespace run, then the tail.  The mandatory `\s+` is first
tried greedily (consuming the whole whitespace run, position `u`); on failure
it backtracks to a shorter run, in which case the `type` group necessarily
fails (the position is whitespace) and only `\s+=.*$` can complete — which
requires the run to have length at least 2 and `u` to start with `=`. -/
def matchItemAt (s : List Char) : Option (List Char × Option (List Char)) :=
  let s1 := s.dropWhile pyIsSpace
  let e := s1.takeWhile (fun c => !pyIsSpace c)
  let s2 := s1.dropWhile (fun c => !pyIsSpace c)
  let w := s2.takeWhile pyIsSpace
  let u := s2.dropWhile pyIsSpace
  if e ≠ [] ∧ w ≠ [] then
    match tailTG u with
    | some oty => some (e, oty)
    | none =>
      if 2 ≤ w.length then
        match u with
        | '=' :: rest => if matchDotStarEnd rest then some (e, none) else none
        | _ => none
      else none
  else none

/-- Search `re_enum_item.search(line)`. -/
def searchItem : List Char → Option (List Char × Option (List Char))
  | [] => none
  | c :: t =>
    match matchItemAt (c :: t) with
    | some r => some r
    | none => searchItem t

/-! ## Parser state and the line-step function -/

/-- One field dict as built by `GoFileParser.parse`; `none` in `name` /
`comment` / `optional` models an absent key or Python `None`. -/
structure FieldD where
  name : Option (List Char)
  type : List Char
  json : List Char
  optional : Option (List Char)
  comment : Option (List Char)
  classptr : Bool
deriving DecidableEq, Repr

/-- One class dict (`{'classname': ..., 'fields': [...]}`). -/
structure ClassInfo where
  classname : List Char
  fields : List FieldD
deriving DecidableEq, Repr

/-- One enum dict; `type = none` models the `'type'` key being absent. -/
structure EnumInfo where
  type : Option (List Char)
  enum : List (List Char)
deriving DecidableEq, Repr

/-- Parser state.  `classes` is kept most-recent-first (the Python code
appends the mutable class dict to its list on creation and keeps mutating it,
so `info` is always the head here); `enums` is kept in file order.  `ctr`
counts the calls to `random.randint` made so far, so that the `rnd` oracle
passed to `step`/`parse` yields each successive random draw. -/
structure PState where
  classes : List ClassInfo
  enums : List EnumInfo
  cur : EnumInfo
  in_enum : Bool
  ctr : Nat
deriving DecidableEq, Repr

/-- Placeholder `'anon-%d' % r`: the synthesized placeholder type name. -/
def anonName (r : Nat) : List Char := "anon-".toList ++ Nat.toDigits 10 r

/-- Operation `info['fields'].append(field)`: appends to the current class dict, or
fails with a `KeyError` (modelled as `none`) when no struct line has been
seen yet (`info = {}` has no `'fields'` key). -/
def appendFieldCur (st : PState) (f : FieldD) : Option PState :=
  match st.classes with
  | [] => none
  | c :: rest => some { st with classes := { c with fields := c.fields ++ [f] } :: rest }

/-- The `FieldD` built for an embedded-pointer line `*T`. -/
def ptrFieldD (pname : List Char) : FieldD :=
  ⟨none, pname, "*".toList, some [],
    some ("FIXME: Replace this field with contents of class".toList), true⟩

/-- The `FieldD` built for a tagged-field line. -/
def taggedFieldD (fname ftype fjson : List Char) (fopt : Option (List Char)) : FieldD :=
  ⟨some fname, ftype, fjson, fopt, none, false⟩

/-- One iteration of the `for line in input` loop of `GoFileParser.parse`,
with the recognizers applied in source order (class, pointer, field, enum
open, then — only in enum mode — enum close before enum item). -/
def step (rnd : Nat → Nat) (st : PState) (line : List Char) : Option PState :=
  match searchClassDecl line with
  | some cname => some { st with classes := ⟨cname, []⟩ :: st.classes }
  | none =>
    match matchPtr line with
    | some pname => appendFieldCur st (ptrFieldD pname)
    | none =>
      match searchField line with
      | some (fname, ftype, fjson, fopt) => appendFieldCur st (taggedFieldD fname ftype fjson fopt)
      | none =>
        if matchEnumOpen line then some { st with in_enum := true, cur := ⟨none, []⟩ }
        else if st.in_enum then
          if matchEnumClose line then
            some { st with in_enum := false, enums := st.enums ++ [st.cur], cur := ⟨none, []⟩ }
          else
            match searchItem line with
            | some (mname, oty) =>
              match st.cur.type with
              | some t => some { st with cur := ⟨some t, st.cur.enum ++ [mname]⟩ }
              | none =>
                match oty with
                | some t => some { st with cur := ⟨some t, st.cur.enum ++ [mname]⟩ }
                | none =>
                  some { st with cur := ⟨some (anonName (rnd st.ctr)), st.cur.enum ++ [mname]⟩,
                                 ctr := st.ctr + 1 }
            | none => some st
        else some st

/-- The loop of `GoFileParser.parse` from a given state. -/
def parseGo (rnd : Nat → Nat) : PState → List (List Char) → Option (List ClassInfo × List EnumInfo)
  | st, [] => some (st.classes.reverse, st.enums)
  | st, l :: ls =>
    match step rnd st l with
    | some st' => parseGo rnd st' ls
    | none => none

/-- Embedding of `GoFileParser.parse`, applied to the list of lines of the input file
(each line carrying its trailing newline, as Python file iteration yields
them).  `rnd k` is the value returned by the `k`-th call of
`random.randint(1000, 9999)`; `none` models the call raising an exception. -/
def parse (rnd : Nat → Nat) (lines : List (List Char)) :
    Option (List ClassInfo × List EnumInfo) :=
  parseGo rnd ⟨[], [], ⟨none, []⟩, false, 0⟩ lines

/-! ## Emitter fragments of `TypeScriptClassWriter` -/

/-- Python truthiness of the `optional` entry (`None` and `''` are falsy). -/
def truthyOpt : Option (List Char) → Bool
  | none => false
  | some s => !s.isEmpty

/-- The line written for one field by `write_class` (vanilla mode): the
joined optional/comment string IS stripped, so a field that is neither
optional nor commented gets no trailing comment. -/
def write_class_field_line (f : FieldD) : List Char :=
  let t := go_type_to_ts_type f.type
  let opt := if truthyOpt f.optional then "optional".toList else []
  let comments := pyStrip (opt ++ " ".toList ++ (f.comment.getD []))
  let comment := if comments = [] then [] else " // ".toList ++ comments
  "  public ".toList ++ f.json ++ ": ".toList ++ t ++ ";".toList ++ comment ++ "\n".toList

/-- The text written for one field by `write_class_typed_json` (decorated
mode): `'\n'.join` of the annotation line, the member line and `'\n'`.  The
joined optional/comment string is NOT stripped, so it always contains at
least the joining space and is always truthy; reading `f['name']` of a field
without a name (or lower-casing the first character of an empty name) raises,
modelled as `none`. -/
def write_class_typed_json_field_lines (f : FieldD) : Option (List Char) :=
  match f.name with
  | some (c :: cs) =>
    let name := pyLowerChar c :: cs
    let t := go_type_to_ts_type f.type
    let opt := if truthyOpt f.optional then "optional".toList else []
    let comments := opt ++ " ".toList ++ (f.comment.getD [])
    let comment := if comments = [] then [] else " // ".toList ++ comments
    some ("  @JsonMember(\x7bname: \x27".toList ++ f.json ++ "\x27\x7d)".toList
      ++ "\n".toList
      ++ "  public ".toList ++ name ++ ": ".toList ++ t ++ ";".toList ++ comment
      ++ "\n".toList ++ "\n".toList)
  | _ => none

/-- The output text of `write_enum`: reading `enum['type']` raises a
`KeyError` (modelled as `none`) when the key was never set. -/
def write_enum (e : EnumInfo) : Option (List Char) :=
  match e.type with
  | none => none
  | some t =>
    some ("export enum ".toList ++ t ++ " \x7b\n".toList
      ++ (e.enum.map (fun m => "  ".toList ++ m ++ ",\n".toList)).flatten
      ++ "\x7d\n".toList)

-- sanity checks of the type translation against hand-traced Python runs
example : go_type_to_ts_type ("int64".toList) = "number".toList := by decide
example : go_type_to_ts_type ("bool".toList) = "boolean".toList := by decide
example : go_type_to_ts_type ("*bool".toList) = "bool".toList := by decide
example : go_type_to_ts_type ("[]string".toList) = "string[]".toList := by decide
example : go_type_to_ts_type ("[]*Foo".toList) = "Foo[]".toList := by decide
example : go_type_to_ts_type ("map[string]string".toList)
    = "\x7b[key: string]: string\x7d".toList := by decide
example : go_type_to_ts_type ("map[string]int".toList) = "number".toList := by decide
example : go_type_to_ts_type ("map[x".toList) = "Object".toList := by decide
example : go_type_to_ts_type ("Printout".toList) = "number".toList := by decide
example : to_dash_name ("HTTPSomething".toList) = "http-something".toList := by decide
example : to_dash_name ("UserProfile".toList) = "user-profile".toList := by decide
example : to_dash_name ("ABcdEfg".toList) = "a-bcd-efg".toList := by decide
example : to_dash_name ("aBcDef".toList) = "a-bc-def".toList := by decide

-- sanity checks of the recognizers against the behaviour of CPython's `re`
example : searchItem ("\tActive Status = iota\n".toList)
    = some ("Active".toList, some ("Status".toList)) := by decide
example : searchItem ("\tInactive\n".toList) = some ("Inactive".toList, none) := by decide
example : searchItem ("A = iota\n".toList) = some ("=".toList, some ("iota".toList)) := by decide
example : searchItem ("A  = iota\n".toList) = some ("A".toList, none) := by decide
example : searchItem ("Foo\n".toList) = some ("Foo".toList, none) := by decide
example : searchItem ("Foo".toList) = none := by decide
example : searchItem ("B = NewStatus(2)\n".toList)
    = some ("=".toList, some ("NewStatus(2)".toList)) := by decide
example : searchItem ("A Status iota\n".toList)
    = some ("Status".toList, some ("iota".toList)) := by decide
example : searchItem ("A  =\n".toList) = some ("A".toList, none) := by decide
example : searchItem (" \n".toList) = none := by decide
example : matchEnumClose ("B = NewStatus(2)\n".toList) = true := by decide
example : matchEnumClose (")\n".toList) = true := by decide
example : matchEnumClose ("  )  \n".toList) = true := by decide
example : matchEnumClose ("x)\n".toList) = true := by decide
example : matchEnumClose (") x\n".toList) = false := by decide
example : matchEnumClose ("Active Status = iota\n".toList) = false := by decide
example : searchField ("Name string \x60json:\"name\"\x60\n".toList)
    = some ("Name".toList, "string".toList, "name".toList, none) := by decide
example : searchField ("  Age int \x60json:\"age,omitempty\"\x60\n".toList)
    = some ("Age".toList, "int".toList, "age".toList, some ("omitempty".toList)) := by decide
example : searchField ("A B \x60json:\"a,\"\x60\n".toList)
    = some ("A".toList, "B".toList, "a".toList, none) := by decide
example : searchField ("A B \x60json:\"a,b\"\x60\n".toList) = none := by decide
example : searchField ("A B \x60json:\"xomitempty\"\x60\n".toList)
    = some ("A".toList, "B".toList, "xomitempty".toList, none) := by decide
example : searchField ("A B \x60json:\"a,omitemptyX\"\x60\n".toList) = none := by decide
example : searchField ("A B\x60json:\"a\"\x60\n".toList) = none := by decide
example : searchField ("A  B   \x60json:\"a b\"\x60\n".toList) = none := by decide
example : searchClassDecl ("type User struct \x7b\n".toList) = some ("User".toList) := by decide
example : searchClassDecl ("xtype A struct\n".toList) = some ("A".toList) := by decide
example : searchClassDecl ("type  A struct\n".toList) = none := by decide
example : searchClassDecl ("type A\tstruct\n".toList) = none := by decide
example : matchPtr ("\t*Foo.Bar\n".toList) = some ("Foo.Bar".toList) := by decide
example : matchPtr ("*Foo\n".toList) = some ("Foo".toList) := by decide
example : matchPtr (" *Foo x\n".toList) = none := by decide
example : matchPtr ("*Foo".toList) = some ("Foo".toList) := by decide
example : mapMatch ("map[a]b c".toList) = some ("a".toList, "b".toList) := by decide
example : mapMatch ("map[]foo".toList) = none := by decide
example : mapMatch ("map[a]".toList) = none := by decide
example : matchEnumOpen ("const (\n".toList) = true := by decide
example : matchEnumOpen ("  const (\n".toList) = true := by decide
example : matchEnumOpen ("constx (\n".toList) = false := by decide

-- an end-to-end parse: struct with two fields, then an enum block
example : parse (fun _ => 0)
    [ "type User struct \x7b\n".toList,
      "  Name string \x60json:\"name\"\x60\n".toList,
      "  Age int \x60json:\"age,omitempty\"\x60\n".toList,
      "\x7d\n".toList,
      "const (\n".toList,
      "\tActive Status = iota\n".toList,
      "\tInactive\n".toList,
      ")\n".toList ]
    = some ([⟨"User".toList,
              [taggedFieldD ("Name".toList) ("string".toList) ("name".toList) none,
               taggedFieldD ("Age".toList) ("int".toList) ("age".toList)
                 (some ("omitempty".toList))]⟩],
            [⟨some ("Status".toList), ["Active".toList, "Inactive".toList]⟩]) := by decide

/-! ## Helper lemmas -/

theorem takeWhile_app_all (p : Char → Bool) (l r : List Char) (h : ∀ c ∈ l, p c = true) :
    (l ++ r).takeWhile p = l ++ r.takeWhile p := by
  induction l with
  | nil => rfl
  | cons c t ih =>
    rw [List.cons_append, List.takeWhile_cons, if_pos (h c (by simp)), List.cons_append,
      ih (fun c hc => h c (by simp [hc]))]

theorem dropWhile_app_all (p : Char → Bool) (l r : List Char) (h : ∀ c ∈ l, p c = true) :
    (l ++ r).dropWhile p = r.dropWhile p := by
  induction l with
  | nil => rfl
  | cons c t ih =>
    rw [List.cons_append, List.dropWhile_cons, if_pos (h c (by simp))]
    exact ih (fun c hc => h c (by simp [hc]))

theorem strContains_cons (n : List Char) (c : Char) (t : List Char) :
    strContains n (c :: t) = (n.isPrefixOf (c :: t) || strContains n t) := rfl

/-! ## Claim C8 -/

/-- C8: for every type-name string containing `int` or `float` as a substring
anywhere — regardless of any other shape the string may have — the type
translation function returns `number`. -/
theorem C8_number_overmatch (g : List Char)
    (h : strContains ("int".toList) g = true ∨ strContains ("float".toList) g = true) :
    go_type_to_ts_type g = "number".toList := by
  unfold go_type_to_ts_type
  rw [if_pos h]

/-- Witness for C8 at the type name `Printout` of the spec's own example. -/
theorem C8_number_overmatch_witness : go_type_to_ts_type ("Printout".toList) = "number".toList :=
  C8_number_overmatch ("Printout".toList) (Or.inl (by decide))


/-! ## Claim C1 -/

/-- C1 counterexample: the claim says translating `map[string]int` yields
`{[key: string]: number}` (spec scenario 3), but the substring check on `int`
fires first and the function returns `number`. -/
theorem C1_map_counterexample :
    go_type_to_ts_type ("map[string]int".toList) = "number".toList ∧
      go_type_to_ts_type ("map[string]int".toList) ≠ "\x7b[key: string]: number\x7d".toList := by
  constructor
  · decide
  · decide

/-- C1 amended: for a map string `map[K]V` with `K` nonempty and free of `]`,
`V` nonempty and free of whitespace, and the whole string containing neither
`int` nor `float` as a substring, translation yields `{[key: K]: V}` (with
`V` verbatim, not recursively translated); a malformed map string `map[` ++ t
with no closing bracket (and no `int`/`float` substring) yields `Object`. -/
theorem C1_map_translation :
    (∀ K V : List Char, K ≠ [] → (∀ c ∈ K, ¬ c = ']') → V ≠ [] →
      (∀ c ∈ V, pyIsSpace c = false) →
      strContains ("int".toList) ("map[".toList ++ (K ++ ']' :: V)) = false →
      strContains ("float".toList) ("map[".toList ++ (K ++ ']' :: V)) = false →
      go_type_to_ts_type ("map[".toList ++ (K ++ ']' :: V))
        = "\x7b[key: ".toList ++ K ++ "]: ".toList ++ V ++ "\x7d".toList) ∧
    (∀ t : List Char, (∀ c ∈ t, ¬ c = ']') →
      strContains ("int".toList) ("map[".toList ++ t) = false →
      strContains ("float".toList) ("map[".toList ++ t) = false →
      go_type_to_ts_type ("map[".toList ++ t) = "Object".toList) := by
  have hbool : ∀ t : List Char, "map[".toList ++ t ≠ "bool".toList := by
    intro t h
    have := congrArg List.head? h
    simp at this
  have hbranch : ∀ t : List Char,
      strContains ("int".toList) ("map[".toList ++ t) = false →
      strContains ("float".toList) ("map[".toList ++ t) = false →
      go_type_to_ts_type ("map[".toList ++ t)
        = match mapMatch ("map[".toList ++ t) with
          | some (k, v) => "\x7b[key: ".toList ++ k ++ "]: ".toList ++ v ++ "\x7d".toList
          | none => "Object".toList := by
    intro t hint hfloat
    unfold go_type_to_ts_type
    rw [if_neg (by rw [hint, hfloat]; rintro (h | h) <;> exact Bool.noConfusion h),
      if_neg (hbool t), if_pos (by simp [List.isPrefixOf_iff_prefix])]
  constructor
  · intro K V hK hKc hV hVs hint hfloat
    rw [hbranch _ hint hfloat]
    have hKp : ∀ c ∈ K, (fun c => !(c == ']')) c = true := by
      intro c hc
      simpa using hKc c hc
    have e1 : ("map[".toList ++ (K ++ ']' :: V)).drop 4 = K ++ ']' :: V := rfl
    have e2 : (K ++ ']' :: V).takeWhile (fun c => !(c == ']')) = K := by
      rw [takeWhile_app_all _ _ _ hKp, List.takeWhile_cons]
      norm_num
    have e3 : (K ++ ']' :: V).dropWhile (fun c => !(c == ']')) = ']' :: V := by
      rw [dropWhile_app_all _ _ _ hKp, List.dropWhile_cons]
      norm_num
    have e4 : V.takeWhile (fun c => !pyIsSpace c) = V :=
      List.takeWhile_eq_self_iff.mpr (fun c hc => by simp [hVs c hc])
    have hpre : ("map[".toList).isPrefixOf ("map[".toList ++ (K ++ ']' :: V)) = true := by
      simp [List.isPrefixOf_iff_prefix]
    have hmm : mapMatch ("map[".toList ++ (K ++ ']' :: V)) = some (K, V) := by
      simp only [mapMatch, hpre, if_true, e1, e2, e3, e4]
      simp [hK, hV]
    rw [hmm]
  · intro t htc hint hfloat
    rw [hbranch _ hint hfloat]
    have e1 : ("map[".toList ++ t).drop 4 = t := rfl
    have e3 : t.dropWhile (fun c => !(c == ']')) = [] :=
      List.dropWhile_eq_nil_iff.mpr (fun c hc => by simpa using htc c hc)
    have hpre : ("map[".toList).isPrefixOf ("map[".toList ++ t) = true := by
      simp [List.isPrefixOf_iff_prefix]
    have hmm : mapMatch ("map[".toList ++ t) = none := by
      simp only [mapMatch, hpre, if_true, e1, e3]
    rw [hmm]

/-- Witness for C1 amended, at `map[string]bool` (well formed) and `map[x`
(malformed). -/
theorem C1_map_translation_witness :
    go_type_to_ts_type ("map[".toList ++ ("string".toList ++ ']' :: "bool".toList))
        = "\x7b[key: ".toList ++ "string".toList ++ "]: ".toList ++ "bool".toList
          ++ "\x7d".toList ∧
      go_type_to_ts_type ("map[".toList ++ "x".toList) = "Object".toList :=
  ⟨C1_map_translation.1 ("string".toList) ("bool".toList) (by decide) (by decide) (by decide)
      (by decide) (by decide) (by decide),
    C1_map_translation.2 ("x".toList) (by decide) (by decide) (by decide)⟩

/-! ## Claim C4 -/

/-- C4 counterexample: translating `*int` yields `number`, not `int`; and
`*bool` translates to `bool` while `bool` translates to `boolean`, so pointee
and value are NOT rendered identically (the stripped pointee is not passed
through the translation again). -/
theorem C4_pointer_counterexample :
    go_type_to_ts_type ("*int".toList) = "number".toList ∧
      "number".toList ≠ "int".toList ∧
      go_type_to_ts_type ("*bool".toList) = "bool".toList ∧
      go_type_to_ts_type ("bool".toList) = "boolean".toList ∧
      "bool".toList ≠ "boolean".toList :=
  ⟨by decide, by decide, by decide, by decide, by decide⟩

/-- C4 amended: for every `T` containing neither `int` nor `float`,
translating `*` ++ T yields exactly `T` (the pointer marker is dropped and
the pointee is emitted verbatim, NOT translated again); consequently the
translation of `*` ++ T agrees with the translation of `T` itself exactly
when `T` is a pass-through type (e.g. it disagrees at `T = bool`). -/
theorem C4_pointer_strip (T : List Char)
    (hint : strContains ("int".toList) T = false)
    (hfloat : strContains ("float".toList) T = false) :
    go_type_to_ts_type ('*' :: T) = T ∧
      (go_type_to_ts_type ('*' :: T) = go_type_to_ts_type T ↔ go_type_to_ts_type T = T) := by
  have hint' : strContains ("int".toList) ('*' :: T) = false := by
    rw [strContains_cons, hint, show ("int".toList).isPrefixOf ('*' :: T) = false from rfl]
    rfl
  have hfloat' : strContains ("float".toList) ('*' :: T) = false := by
    rw [strContains_cons, hfloat, show ("float".toList).isPrefixOf ('*' :: T) = false from rfl]
    rfl
  have hbool : ('*' :: T) ≠ "bool".toList := by
    intro h
    have := congrArg List.head? h
    simp at this
  have h1 : go_type_to_ts_type ('*' :: T) = T := by
    unfold go_type_to_ts_type
    rw [if_neg (by rw [hint', hfloat']; rintro (h | h) <;> exact Bool.noConfusion h),
      if_neg hbool,
      if_neg (by rw [show ("map[".toList).isPrefixOf ('*' :: T) = false from rfl]; decide),
      if_neg (by rw [show ("[]".toList).isPrefixOf ('*' :: T) = false from rfl]; decide),
      if_pos (by simp [List.isPrefixOf_iff_prefix])]
    rfl
  refine ⟨h1, ?_⟩
  rw [h1]
  exact eq_comm

/-- Witness for C4 amended at `T = Foo`. -/
theorem C4_pointer_strip_witness :
    go_type_to_ts_type ('*' :: "Foo".toList) = "Foo".toList :=
  (C4_pointer_strip ("Foo".toList) (by decide) (by decide)).1

/-! ## Claim C5 -/

/-- C5 counterexample: translating `[]int` yields `number`, not `int[]` (the
`int`/`float` substring check fires before the slice branch). -/
theorem C5_slice_counterexample :
    go_type_to_ts_type ("[]int".toList) = "number".toList ∧
      "number".toList ≠ "int[]".toList :=
  ⟨by decide, by decide⟩

/-- C5 amended: for every `T` containing neither `int` nor `float`:
if `T` does not begin with `*` then `[]` ++ T translates to T ++ `[]`, and
`[]*` ++ T always translates to T ++ `[]` (one leading pointer marker on the
element is stripped). -/
theorem C5_slice_translation (T : List Char)
    (hint : strContains ("int".toList) T = false)
    (hfloat : strContains ("float".toList) T = false) :
    (("*".toList).isPrefixOf T = false →
      go_type_to_ts_type ("[]".toList ++ T) = T ++ "[]".toList) ∧
      go_type_to_ts_type ("[]".toList ++ ('*' :: T)) = T ++ "[]".toList := by
  have hstep : ∀ (c : Char) (T' : List Char),
      ("int".toList).isPrefixOf (c :: T') = false →
      ("float".toList).isPrefixOf (c :: T') = false →
      strContains ("int".toList) T' = false →
      strContains ("float".toList) T' = false →
      strContains ("int".toList) (c :: T') = false ∧
        strContains ("float".toList) (c :: T') = false := by
    intro c T' hpi hpf hi hf
    constructor
    · rw [strContains_cons, hpi, hi]; rfl
    · rw [strContains_cons, hpf, hf]; rfl
  constructor
  · intro hstar
    have hc1 := hstep ']' T rfl rfl hint hfloat
    have hc2 := hstep '[' (']' :: T) rfl rfl hc1.1 hc1.2
    have hbool : ('[' :: ']' :: T) ≠ "bool".toList := by
      intro h
      have := congrArg List.head? h
      simp at this
    show go_type_to_ts_type ('[' :: ']' :: T) = T ++ "[]".toList
    unfold go_type_to_ts_type
    rw [if_neg (by rw [hc2.1, hc2.2]; rintro (h | h) <;> exact Bool.noConfusion h),
      if_neg hbool,
      if_neg (by rw [show ("map[".toList).isPrefixOf ('[' :: ']' :: T) = false from rfl]; decide),
      if_pos (by simp [List.isPrefixOf_iff_prefix])]
    have hdrop : ('[' :: ']' :: T).drop 2 = T := rfl
    simp only [hdrop]
    rw [if_neg]
    rw [Bool.not_eq_true]
    cases T with
    | nil => rfl
    | cons c cs =>
      show (("*".toList).isPrefixOf (c :: (cs ++ "[]".toList))) = false
      cases hq : ("*".toList).isPrefixOf (c :: (cs ++ "[]".toList))
      · rfl
      · exfalso
        rw [List.isPrefixOf_iff_prefix] at hq
        rcases hq with ⟨r, hr⟩
        have hc : c = '*' := by
          have := congrArg List.head? hr
          simpa using this.symm
        rw [hc] at hstar
        have htrue : ("*".toList).isPrefixOf ('*' :: cs) = true := by
          simp [List.isPrefixOf_iff_prefix]
        rw [htrue] at hstar
        exact Bool.noConfusion hstar
  · have hc0 := hstep '*' T rfl rfl hint hfloat
    have hc1 := hstep ']' ('*' :: T) rfl rfl hc0.1 hc0.2
    have hc2 := hstep '[' (']' :: '*' :: T) rfl rfl hc1.1 hc1.2
    have hbool : ('[' :: ']' :: '*' :: T) ≠ "bool".toList := by
      intro h
      have := congrArg List.head? h
      simp at this
    show go_type_to_ts_type ('[' :: ']' :: '*' :: T) = T ++ "[]".toList
    unfold go_type_to_ts_type
    rw [if_neg (by rw [hc2.1, hc2.2]; rintro (h | h) <;> exact Bool.noConfusion h),
      if_neg hbool,
      if_neg (by
        rw [show ("map[".toList).isPrefixOf ('[' :: ']' :: '*' :: T) = false from rfl]
        decide),
      if_pos (by simp [List.isPrefixOf_iff_prefix])]
    have hdrop : ('[' :: ']' :: '*' :: T).drop 2 = '*' :: T := rfl
    simp only [hdrop]
    rw [if_pos (by simp [List.isPrefixOf_iff_prefix])]
    rfl

/-- Witness for C5 amended at `T = Foo`. -/
theorem C5_slice_translation_witness :
    go_type_to_ts_type ("[]".toList ++ "Foo".toList) = "Foo".toList ++ "[]".toList ∧
      go_type_to_ts_type ("[]".toList ++ ('*' :: "Foo".toList)) = "Foo".toList ++ "[]".toList :=
  ⟨(C5_slice_translation ("Foo".toList) (by decide) (by decide)).1 (by decide),
    (C5_slice_translation ("Foo".toList) (by decide) (by decide)).2⟩

/-! ## Claim C9 -/

theorem isUpper_pyLowerChar (c : Char) : isUpper (pyLowerChar c) = false := by
  unfold pyLowerChar
  by_cases h : isUpper c = true
  · rw [if_pos h]
    unfold isUpper at h ⊢
    simp only [Bool.and_eq_true, decide_eq_true_eq] at h
    have hv : (Char.ofNat (c.toNat + 32)).toNat = c.toNat + 32 := by
      unfold Char.ofNat
      rw [dif_pos (Or.inl (by omega))]
      rfl
    rw [hv]
    have hgt : ¬ (c.toNat + 32 ≤ 90) := by omega
    simp [hgt]
  · rw [if_neg h]
    simpa using h

theorem pyLowerChar_id (c : Char) (h : isUpper c = false) : pyLowerChar c = c := by
  unfold pyLowerChar
  rw [if_neg (by simp [h])]

theorem pyLower_id (s : List Char) (h : ∀ c ∈ s, isUpper c = false) : pyLower s = s := by
  unfold pyLower
  induction s with
  | nil => rfl
  | cons c t ih =>
    rw [List.map_cons, pyLowerChar_id c (h c (by simp)),
      ih (fun x hx => h x (by simp [hx]))]

theorem sub1Fuel_id (fuel : Nat) (s : List Char) (h : ∀ c ∈ s, isUpper c = false) :
    sub1Fuel fuel s = s := by
  induction fuel generalizing s with
  | zero => rfl
  | succ n ih =>
    match s with
    | [] => rfl
    | [c] => rfl
    | [c, u] => rfl
    | c :: u :: d :: t =>
      have hu : isUpper u = false := h u (by simp)
      simp only [sub1Fuel, hu, Bool.false_and, Bool.false_eq_true, if_false,
        List.cons.injEq, true_and]
      exact ih (u :: d :: t) (fun x hx => h x (by simp at hx ⊢; tauto))

theorem sub2_id (s : List Char) (h : ∀ c ∈ s, isUpper c = false) : sub2 s = s := by
  have main : ∀ (n : Nat) (t : List Char), t.length ≤ n →
      (∀ c ∈ t, isUpper c = false) → sub2 t = t := by
    intro n
    induction n with
    | zero =>
      intro t hlen _
      match t with
      | [] => rfl
      | c :: _ => simp at hlen
    | succ m ih =>
      intro t hlen ht
      match t with
      | [] => rfl
      | [c] => rfl
      | c :: u :: r =>
        have hu : isUpper u = false := ht u (by simp)
        simp only [sub2, hu, Bool.and_false, Bool.false_eq_true, if_false,
          List.cons.injEq, true_and]
        exact ih (u :: r) (by simp at hlen ⊢; omega)
          (fun x hx => ht x (by simp at hx ⊢; tauto))
  exact main s.length s le_rfl h

/-- C9: the file-name hyphenation transform returns any capital-free string
(in particular any already-hyphenated lower-case string) unchanged, its
output never contains a capital letter, and it is idempotent on every
string. -/
theorem C9_to_dash_name_idempotent (s : List Char) :
    ((∀ c ∈ s, isUpper c = false) → to_dash_name s = s) ∧
      (∀ c ∈ to_dash_name s, isUpper c = false) ∧
      to_dash_name (to_dash_name s) = to_dash_name s := by
  have hid : ∀ t : List Char, (∀ c ∈ t, isUpper c = false) → to_dash_name t = t := by
    intro t ht
    unfold to_dash_name sub1
    rw [sub1Fuel_id t.length t ht, sub2_id t ht, pyLower_id t ht]
  have hnoup : ∀ c ∈ to_dash_name s, isUpper c = false := by
    intro c hc
    unfold to_dash_name pyLower at hc
    rcases List.mem_map.mp hc with ⟨a, _, rfl⟩
    exact isUpper_pyLowerChar a
  exact ⟨hid s, hnoup, hid _ hnoup⟩

/-- Witness for C9 at the already-hyphenated name `abc-def0`. -/
theorem C9_to_dash_name_witness : to_dash_name ("abc-def0".toList) = "abc-def0".toList :=
  (C9_to_dash_name_idempotent ("abc-def0".toList)).1 (by decide)

/-! ## Claim C10 -/

/-- C10: on a field whose `optional` entry is falsy and which carries no
comment, the plain-class mode emits the member line with no trailing line
comment (the joined optional/comment string is stripped to empty), while the
decorated TypedJSON mode emits a trailing ` //  ` marker on the member line
(the joined string is the single joining space, which is truthy because it
is never stripped). -/
theorem C10_comment_marker_modes (f : FieldD) (c : Char) (cs : List Char)
    (hopt : truthyOpt f.optional = false) (hcom : f.comment = none)
    (hname : f.name = some (c :: cs)) :
    write_class_field_line f
        = "  public ".toList ++ f.json ++ ": ".toList ++ go_type_to_ts_type f.type
          ++ ";".toList ++ "\n".toList ∧
      write_class_typed_json_field_lines f
        = some ("  @JsonMember(\x7bname: \x27".toList ++ f.json ++ "\x27\x7d)".toList
          ++ "\n".toList
          ++ "  public ".toList ++ (pyLowerChar c :: cs) ++ ": ".toList
          ++ go_type_to_ts_type f.type ++ ";".toList ++ (" // ".toList ++ " ".toList)
          ++ "\n".toList ++ "\n".toList) := by
  constructor
  · unfold write_class_field_line
    rw [hopt, hcom]
    simp only [if_false, Bool.false_eq_true, Option.getD_none, List.nil_append]
    rw [if_pos (by decide), List.append_nil]
  · unfold write_class_typed_json_field_lines
    rw [hname, hopt, hcom]
    simp only [if_false, Bool.false_eq_true, Option.getD_none, List.nil_append]
    rw [if_neg (by decide), List.append_nil]

/-- Witness for C10 at a concrete comment-free, non-optional field. -/
theorem C10_comment_marker_modes_witness :
    write_class_field_line ⟨some ("Name".toList), "string".toList, "name".toList, none,
        none, false⟩
      = "  public ".toList ++ "name".toList ++ ": ".toList
        ++ go_type_to_ts_type ("string".toList) ++ ";".toList ++ "\n".toList :=
  (C10_comment_marker_modes
    ⟨some ("Name".toList), "string".toList, "name".toList, none, none, false⟩
    'N' ("ame".toList) (by decide) (by decide) (by decide)).1

/-! ## Claim C2 -/

/-- A line on which `parse` raises: not recognized as a struct declaration,
but recognized as an embedded-pointer or tagged-field line (so that
`info['fields']` is accessed). -/
def lineBad (l : List Char) : Bool :=
  (searchClassDecl l).isNone && ((matchPtr l).isSome || (searchField l).isSome)

theorem step_enum_part (rnd : Nat → Nat) (st : PState) (line : List Char)
    (hc : searchClassDecl line = none) (hp : matchPtr line = none)
    (hf : searchField line = none) :
    ∃ st', step rnd st line = some st' ∧ st'.classes = st.classes := by
  simp only [step, hc, hp, hf]
  by_cases ho : matchEnumOpen line = true
  · rw [if_pos ho]
    exact ⟨_, rfl, rfl⟩
  · rw [if_neg ho]
    by_cases he : st.in_enum = true
    · rw [if_pos he]
      by_cases hcl : matchEnumClose line = true
      · rw [if_pos hcl]
        exact ⟨_, rfl, rfl⟩
      · rw [if_neg hcl]
        cases hi : searchItem line with
        | none => exact ⟨st, rfl, rfl⟩
        | some r =>
          rcases r with ⟨mname, oty⟩
          cases hty : st.cur.type with
          | some t => exact ⟨_, rfl, rfl⟩
          | none =>
            cases oty with
            | some t => exact ⟨_, rfl, rfl⟩
            | none => exact ⟨_, rfl, rfl⟩
    · rw [if_neg he]
      exact ⟨st, rfl, rfl⟩

theorem step_total_of_classes (rnd : Nat → Nat) (st : PState) (line : List Char)
    (h : st.classes ≠ []) :
    ∃ st', step rnd st line = some st' ∧ st'.classes ≠ [] := by
  obtain ⟨c0, rest, hcl⟩ : ∃ c0 rest, st.classes = c0 :: rest := by
    cases hq : st.classes with
    | nil => exact absurd hq h
    | cons a b => exact ⟨a, b, rfl⟩
  cases hc : searchClassDecl line with
  | some cname =>
    have hstep : step rnd st line = some { st with classes := ⟨cname, []⟩ :: st.classes } := by
      simp only [step, hc]
    exact ⟨_, hstep, by simp⟩
  | none =>
    cases hp : matchPtr line with
    | some pname =>
      have hstep : step rnd st line
          = some { st with classes :=
              { c0 with fields := c0.fields ++ [ptrFieldD pname] } :: rest } := by
        simp only [step, hc, hp, appendFieldCur, hcl]
      exact ⟨_, hstep, by simp⟩
    | none =>
      cases hf : searchField line with
      | some r =>
        rcases r with ⟨fname, ftype, fjson, fopt⟩
        have hstep : step rnd st line
            = some { st with classes :=
                { c0 with fields := c0.fields ++ [taggedFieldD fname ftype fjson fopt] }
                  :: rest } := by
          simp only [step, hc, hp, hf, appendFieldCur, hcl]
        exact ⟨_, hstep, by simp⟩
      | none =>
        obtain ⟨st', hstep, heq⟩ := step_enum_part rnd st line hc hp hf
        exact ⟨st', hstep, by rw [heq]; exact h⟩

theorem parseGo_total (rnd : Nat → Nat) (ls : List (List Char)) :
    ∀ st : PState, st.classes ≠ [] → (parseGo rnd st ls).isSome = true := by
  induction ls with
  | nil => intro st _; rfl
  | cons l ls ih =>
    intro st h
    obtain ⟨st', hstep, hne⟩ := step_total_of_classes rnd st l h
    simp only [parseGo, hstep]
    exact ih st' hne

/-- C2 counterexample: a tagged-field line occurring before any struct-open
line is NOT absorbed without failure; `parse` raises a `KeyError` (modelled
as `none`) because `info` has no `'fields'` entry yet. -/
theorem C2_parse_counterexample :
    parse (fun _ => 0) ["Name string \x60json:\"name\"\x60\n".toList] = none := by decide

/-- C2 amended: `parse` returns normally on every sequence of lines in which
each embedded-pointer or tagged-field line is preceded by some struct-open
line; a pointer or field line with no preceding struct-open line raises. -/
theorem C2_parse_totality (rnd : Nat → Nat) (lines : List (List Char))
    (H : ∀ pre l post, lines = pre ++ l :: post → lineBad l = true →
      ∃ l2 ∈ pre, (searchClassDecl l2).isSome = true) :
    (parse rnd lines).isSome = true := by
  suffices h : ∀ (ls : List (List Char)) (st : PState), st.classes = [] →
      (∀ pre l post, ls = pre ++ l :: post → lineBad l = true →
        ∃ l2 ∈ pre, (searchClassDecl l2).isSome = true) →
      (parseGo rnd st ls).isSome = true by
    exact h lines _ rfl H
  intro ls
  induction ls with
  | nil => intro st _ _; rfl
  | cons l ls ih =>
    intro st hcl Hh
    cases hc : searchClassDecl l with
    | some cname =>
      have hstep : step rnd st l = some { st with classes := ⟨cname, []⟩ :: st.classes } := by
        simp only [step, hc]
      simp only [parseGo, hstep]
      exact parseGo_total rnd ls _ (by simp)
    | none =>
      by_cases hbad : lineBad l = true
      · obtain ⟨l2, hl2, _⟩ := Hh [] l ls rfl hbad
        simp at hl2
      · have hp : matchPtr l = none := by
          cases hmp : matchPtr l with
          | none => rfl
          | some r =>
            exfalso
            apply hbad
            unfold lineBad
            rw [hc, hmp]
            rfl
        have hf : searchField l = none := by
          cases hmf : searchField l with
          | none => rfl
          | some r =>
            exfalso
            apply hbad
            unfold lineBad
            rw [hc, hmf]
            simp
        obtain ⟨st', hstep, heq⟩ := step_enum_part rnd st l hc hp hf
        simp only [parseGo, hstep]
        refine ih st' (by rw [heq, hcl]) ?_
        intro pre l' post hsplit hbad'
        obtain ⟨l2, hl2, hsc⟩ := Hh (l :: pre) l' post (by rw [hsplit, List.cons_append]) hbad'
        rcases List.mem_cons.mp hl2 with rfl | hl2'
        · rw [hc] at hsc
          exact absurd hsc (by decide)
        · exact ⟨l2, hl2', hsc⟩

/-- Witness for C2 amended: a struct-open line followed by a tagged-field
line.  The field line is recognized (`lineBad` holds for it), and the
hypothesis is discharged by checking every decomposition of the two-line
input: the first line is not bad, and the bad second line is preceded by the
struct-open line, so `parse` succeeds. -/
theorem C2_parse_totality_witness :
    (parse (fun _ => 0)
      ["type A struct \x7b\n".toList,
        "Name string \x60json:\"name\"\x60\n".toList]).isSome = true :=
  C2_parse_totality (fun _ => 0)
    ["type A struct \x7b\n".toList, "Name string \x60json:\"name\"\x60\n".toList]
    (by
      intro pre l post hsplit hbad
      cases pre with
      | nil =>
        rw [List.nil_append] at hsplit
        have hl : "type A struct \x7b\n".toList = l := (List.cons.inj hsplit).1
        rw [← hl] at hbad
        exact absurd hbad (by decide)
      | cons p pre' =>
        have hp : "type A struct \x7b\n".toList = p := (List.cons.inj hsplit).1
        cases pre' with
        | nil =>
          refine ⟨p, by simp, ?_⟩
          rw [← hp]
          decide
        | cons q pre'' =>
          have htail := (List.cons.inj hsplit).2
          have h2 := (List.cons.inj htail).2
          exact absurd h2.symm (by simp))

/-! ## Claim C3 -/

/-- Structural characterization of `re_enum_close`: the unanchored pattern
`\s*\)\s*$` matches a line iff the line has a `)` followed only by
whitespace, i.e. iff it decomposes as `pre ++ ')' :: ws` with `ws` all
whitespace — NOT only when the line is a lone `)`. -/
theorem matchEnumClose_iff (l : List Char) :
    matchEnumClose l = true ↔
      ∃ pre ws, l = pre ++ ')' :: ws ∧ ∀ c ∈ ws, pyIsSpace c = true := by
  unfold matchEnumClose
  constructor
  · intro h
    cases hd : l.reverse.dropWhile pyIsSpace with
    | nil => rw [hd] at h; exact absurd h (by decide)
    | cons c rest =>
      rw [hd] at h
      have hc : c = ')' := by simpa using h
      subst hc
      refine ⟨rest.reverse, (l.reverse.takeWhile pyIsSpace).reverse, ?_, ?_⟩
      · have hsplit : l.reverse.takeWhile pyIsSpace ++ (')' :: rest) = l.reverse := by
          rw [← hd]
          exact List.takeWhile_append_dropWhile pyIsSpace l.reverse
        have h2 := congrArg List.reverse hsplit
        rw [List.reverse_reverse, List.reverse_append, List.reverse_cons,
          List.append_assoc] at h2
        exact h2.symm
      · intro c hc'
        rw [List.mem_reverse] at hc'
        exact List.mem_takeWhile_imp hc'
  · rintro ⟨pre, ws, rfl, hws⟩
    rw [List.reverse_append, List.reverse_cons, List.append_assoc,
      dropWhile_app_all pyIsSpace ws.reverse _ (fun c hc => hws c (List.mem_reverse.mp hc)),
      List.singleton_append, List.dropWhile_cons, if_neg (by decide)]
    rfl

/-- C3 counterexample: in enum mode the member line `B = NewStatus(2)` (which
merely ends with `)`) matches the close test and closes the block instead of
being recorded: parsing the block yields an enum whose member list is just
`[A]`, with `B` absent. -/
theorem C3_enum_close_counterexample :
    matchEnumClose ("B = NewStatus(2)\n".toList) = true ∧
      parse (fun _ => 0)
          ["const (\n".toList, "A Status = iota\n".toList,
            "B = NewStatus(2)\n".toList, ")\n".toList]
        = some ([], [⟨some ("Status".toList), ["A".toList]⟩]) := by
  constructor
  · decide
  · decide

/-- C3 amended: in enum mode (and when no earlier recognizer consumed the
line) a line ends the enum block — appending the completed descriptor and
resetting enum mode — iff it consists of anything followed by a `)` and then
only whitespace; the close test is applied before the enum-item test, so such
a line is never recorded as a member even when the item pattern would match
it. -/
theorem C3_enum_close_rule (rnd : Nat → Nat) (st : PState) (line : List Char)
    (he : st.in_enum = true)
    (hc : searchClassDecl line = none) (hp : matchPtr line = none)
    (hf : searchField line = none) (ho : matchEnumOpen line = false) :
    (∃ pre ws, line = pre ++ ')' :: ws ∧ ∀ c ∈ ws, pyIsSpace c = true) ↔
      step rnd st line
        = some { st with in_enum := false, enums := st.enums ++ [st.cur],
                         cur := ⟨none, []⟩ } := by
  constructor
  · intro hdec
    have hclose : matchEnumClose line = true := (matchEnumClose_iff line).mpr hdec
    simp only [step, hc, hp, hf]
    rw [if_neg (by rw [ho]; exact Bool.noConfusion), if_pos he, if_pos hclose]
  · intro hstep
    by_contra hnot
    have hclose : matchEnumClose line = false := by
      cases hq : matchEnumClose line with
      | false => rfl
      | true => exact absurd ((matchEnumClose_iff line).mp hq) hnot
    simp only [step, hc, hp, hf] at hstep
    rw [if_neg (by rw [ho]; exact Bool.noConfusion), if_pos he,
      if_neg (by rw [hclose]; exact Bool.noConfusion)] at hstep
    cases hi : searchItem line with
    | none =>
      rw [hi] at hstep
      have h2 := Option.some.inj hstep
      have h3 := congrArg PState.in_enum h2
      rw [he] at h3
      exact Bool.noConfusion h3
    | some r =>
      rcases r with ⟨mname, oty⟩
      rw [hi] at hstep
      cases hty : st.cur.type with
      | some t =>
        rw [hty] at hstep
        have h3 := congrArg PState.in_enum (Option.some.inj hstep)
        rw [he] at h3
        exact Bool.noConfusion h3
      | none =>
        rw [hty] at hstep
        cases oty with
        | some t =>
          have h3 := congrArg PState.in_enum (Option.some.inj hstep)
          rw [he] at h3
          exact Bool.noConfusion h3
        | none =>
          have h3 := congrArg PState.in_enum (Option.some.inj hstep)
          rw [he] at h3
          exact Bool.noConfusion h3

/-- Witness for C3 amended: a concrete in-enum state and the line `)`. -/
theorem C3_enum_close_rule_witness :
    step (fun _ => 0) ⟨[], [], ⟨some ("S".toList), ["A".toList]⟩, true, 0⟩ (")\n".toList)
      = some ⟨[], [] ++ [⟨some ("S".toList), ["A".toList]⟩], ⟨none, []⟩, false, 0⟩ :=
  (C3_enum_close_rule (fun _ => 0) ⟨[], [], ⟨some ("S".toList), ["A".toList]⟩, true, 0⟩
      (")\n".toList) rfl (by decide) (by decide) (by decide) (by decide)).mp
    ⟨[], ['\n'], rfl, by decide⟩

/-! ## Claim C6 -/

/-- C6 counterexample: an empty enum block (`const (` immediately followed by
`)`) yields an `EnumInfo` whose `type` entry is ABSENT — nothing synthesizes
a type name at block entry — and rendering that descriptor fails for lack of
a type name (`write_enum` reads `enum['type']`). -/
theorem C6_empty_enum_counterexample :
    parse (fun _ => 0) ["const (\n".toList, ")\n".toList] = some ([], [⟨none, []⟩]) ∧
      write_enum ⟨none, []⟩ = none := by
  constructor
  · decide
  · decide

/-- C6 amended: an enum block with zero recognized items still yields an
EnumDescriptor with an empty member list, but its `typeName` is absent (it is
synthesized only on the first recognized item line, never from block entry
alone), so rendering the descriptor fails for lack of a type name. -/
theorem C6_empty_enum_block (rnd : Nat → Nat) (o c : List Char)
    (ho1 : searchClassDecl o = none) (ho2 : matchPtr o = none) (ho3 : searchField o = none)
    (ho4 : matchEnumOpen o = true)
    (hc1 : searchClassDecl c = none) (hc2 : matchPtr c = none) (hc3 : searchField c = none)
    (hc4 : matchEnumOpen c = false) (hc5 : matchEnumClose c = true) :
    parse rnd [o, c] = some ([], [⟨none, []⟩]) ∧ write_enum ⟨none, []⟩ = none := by
  refine ⟨?_, rfl⟩
  unfold parse
  have h1 : step rnd ⟨[], [], ⟨none, []⟩, false, 0⟩ o
      = some ⟨[], [], ⟨none, []⟩, true, 0⟩ := by
    simp only [step, ho1, ho2, ho3]
    rw [if_pos ho4]
  have h2 : step rnd ⟨[], [], ⟨none, []⟩, true, 0⟩ c
      = some ⟨[], [⟨none, []⟩], ⟨none, []⟩, false, 0⟩ := by
    simp only [step, hc1, hc2, hc3]
    rw [if_neg (by rw [hc4]; exact Bool.noConfusion), if_true, if_pos hc5]
    rfl
  simp only [parseGo, h1, h2]
  rfl

/-- Witness for C6 amended at the block `const (` / `)`. -/
theorem C6_empty_enum_block_witness :
    parse (fun _ => 7) ["const (\n".toList, ")\n".toList] = some ([], [⟨none, []⟩]) ∧
      write_enum ⟨none, []⟩ = none :=
  C6_empty_enum_block (fun _ => 7) ("const (\n".toList) (")\n".toList)
    (by decide) (by decide) (by decide) (by decide)
    (by decide) (by decide) (by decide) (by decide) (by decide)

/-! ## Claim C7 -/

/-- C7: when, in enum mode, a line is recognized as an enum item (no earlier
recognizer consumed it and the close test failed), the member name is
appended to the block's member list in order, and the block's `typeName` is
determined solely by the first recognized item: if a type name is already
recorded it is kept unchanged (a type token on the line is ignored), and if
none is recorded yet it becomes the line's type token, or the synthesized
placeholder `anon-<random>` when the line carries no type token. -/
theorem C7_enum_item_rule (rnd : Nat → Nat) (st : PState) (line : List Char)
    (name : List Char) (oty : Option (List Char))
    (he : st.in_enum = true)
    (hc : searchClassDecl line = none) (hp : matchPtr line = none)
    (hf : searchField line = none) (ho : matchEnumOpen line = false)
    (hcl : matchEnumClose line = false) (hit : searchItem line = some (name, oty)) :
    ∃ st', step rnd st line = some st' ∧
      st'.classes = st.classes ∧ st'.enums = st.enums ∧ st'.in_enum = true ∧
      st'.cur.enum = st.cur.enum ++ [name] ∧
      (∀ t, st.cur.type = some t → st'.cur.type = some t ∧ st'.ctr = st.ctr) ∧
      (st.cur.type = none → st'.cur.type = some (oty.getD (anonName (rnd st.ctr)))) := by
  obtain ⟨scls, sens, ⟨sty, sen⟩, sie, sctr⟩ := st
  simp only at he
  subst he
  have hred : step rnd ⟨scls, sens, ⟨sty, sen⟩, true, sctr⟩ line
      = match sty with
        | some t => some ⟨scls, sens, ⟨some t, sen ++ [name]⟩, true, sctr⟩
        | none =>
          match oty with
          | some t => some ⟨scls, sens, ⟨some t, sen ++ [name]⟩, true, sctr⟩
          | none =>
            some ⟨scls, sens, ⟨some (anonName (rnd sctr)), sen ++ [name]⟩, true, sctr + 1⟩ := by
    simp only [step, hc, hp, hf]
    rw [if_neg (by rw [ho]; exact Bool.noConfusion), if_true,
      if_neg (by rw [hcl]; exact Bool.noConfusion)]
    simp only [hit]
    cases sty with
    | none => cases oty <;> rfl
    | some t => rfl
  cases sty with
  | some t =>
    refine ⟨_, hred, rfl, rfl, rfl, rfl, ?_, ?_⟩
    · intro t' ht'
      have heq : t = t' := Option.some.inj ht'
      exact ⟨by rw [← heq], rfl⟩
    · intro h0
      exact Option.noConfusion h0
  | none =>
    cases oty with
    | some t =>
      refine ⟨_, hred, rfl, rfl, rfl, rfl, ?_, ?_⟩
      · intro t' ht'
        exact Option.noConfusion ht'
      · intro _
        rfl
    | none =>
      refine ⟨_, hred, rfl, rfl, rfl, rfl, ?_, ?_⟩
      · intro t' ht'
        exact Option.noConfusion ht'
      · intro _
        rfl

/-- Witness for C7 at a concrete state whose block already has a type name
and a line carrying a (different) type token. -/
theorem C7_enum_item_rule_witness :
    ∃ st', step (fun _ => 0) ⟨[], [], ⟨some ("S".toList), ["A".toList]⟩, true, 0⟩
        ("B T2 = 5\n".toList) = some st' ∧
      st'.cur.enum = ["A".toList] ++ ["B".toList] ∧ st'.cur.type = some ("S".toList) := by
  obtain ⟨st', hstep, _, _, _, henum, hkeep, _⟩ :=
    C7_enum_item_rule (fun _ => 0) ⟨[], [], ⟨some ("S".toList), ["A".toList]⟩, true, 0⟩
      ("B T2 = 5\n".toList) ("B".toList) (some ("T2".toList)) rfl
      (by decide) (by decide) (by decide) (by decide) (by decide) (by decide)
  exact ⟨st', hstep, henum, (hkeep ("S".toList) rfl).1⟩

end Gotots
